import Mathlib

/-!
Shallow embedding of src/src/network/tcp.c (VLC TCP connection layer):
`__net_Connect`, `__net_Accept`, `SocksNegociate` and the version handling of
`SocksHandshakeTCP`.  External collaborators (the resolver, the socket
primitives, `poll`, `accept`, the configuration variables and the liveness
flag `b_die` / `vlc_object_alive`) are modelled as explicit environment
inputs; the control flow, byte-level frame construction and the pointer
arithmetic of the source are translated faithfully, including the
`poll (ufd, n, timeout)` call of tcp.c:292 and the byte-counted
`memmove` of tcp.c:327.
-/

set_option maxRecDepth 4096

namespace VlcTcp

/-- Value of the `SOCK_STREAM` constant used by tcp.c (Linux ABI). -/
def SOCK_STREAM : Int := 1

/-- Value of the `IPPROTO_TCP` constant used by tcp.c. -/
def IPPROTO_TCP : Int := 6

/-! ## Connector: the in-progress poll loop of `__net_Connect` (tcp.c:167-212) -/

/-- Outcome of one iteration of the bounded poll loop at tcp.c:177-212, as
seen by the loop body: `die` is `p_this->b_die` observed at the top of the
iteration (tcp.c:182), `ready` is `poll` returning 1, `timeout` is `poll`
returning 0, `eintr` is `poll` failing with `EINTR`, `errOther` is `poll`
failing with any other errno. -/
inductive PollEv
  | die
  | ready
  | timeout
  | eintr
  | errOther
  deriving DecidableEq

/-- Result of the bounded poll loop: `connected` is the `break` at
tcp.c:197, `timedOutNext` the `goto next_ai` at tcp.c:208 (budget
exhausted, warning logged), `pollErrNext` the `goto next_ai` at tcp.c:202
(poll error other than EINTR), `aborted` the `return -1` at tcp.c:187
(`b_die` observed).  `stuckL` marks an event trace too short to decide the
loop (a model artifact, excluded by hypothesis in the theorems). -/
inductive LoopRes
  | connected
  | timedOutNext
  | pollErrNext
  | aborted
  | stuckL
  deriving DecidableEq

/-- tcp.c:170-174: a negative `ipv4-timeout` is clamped to 0 and an error
is logged (second component of the result). -/
def clampTimeout (t : Int) : Nat × Bool :=
  if t < 0 then (0, true) else (t.toNat, false)

/-- The poll loop of tcp.c:177-212.  `quot` and `rem` are the fields of
`d = div(timeout, 100)` (tcp.c:175); the slice passed to `poll` is
`(d.quot > 0) ? 100 : d.rem` (tcp.c:195).  The first component of the
result is the sequence of slice durations handed to `poll`; the loop
decrements `d.quot` once per non-final iteration (tcp.c:211). -/
def pollLoop (quot rem : Nat) : List PollEv → List Nat × LoopRes
  | [] => ([], .stuckL)
  | e :: es =>
    match e with
    | .die => ([], .aborted)
    | .ready => ([if 0 < quot then 100 else rem], .connected)
    | .errOther => ([if 0 < quot then 100 else rem], .pollErrNext)
    | .timeout =>
      if quot = 0 then ([rem], .timedOutNext)
      else (100 :: (pollLoop (quot - 1) rem es).1, (pollLoop (quot - 1) rem es).2)
    | .eintr =>
      if quot = 0 then ([rem], .timedOutNext)
      else (100 :: (pollLoop (quot - 1) rem es).1, (pollLoop (quot - 1) rem es).2)

/-- Per-candidate behaviour of the environment inside the loop of
tcp.c:144-232: `createFail` is `net_Socket` returning -1 (tcp.c:148),
`connectHardFail` is `connect` failing with an errno other than
`EINPROGRESS` (tcp.c:160), `immediate` is `connect` returning 0, and
`inProgress evs soErr` is the `EINPROGRESS` path with poll-loop events
`evs` and the `SO_ERROR` value read at tcp.c:215 after writability. -/
inductive ConnStep
  | createFail
  | connectHardFail
  | immediate
  | inProgress (evs : List PollEv) (soErr : Nat)
  deriving DecidableEq

/-- One resolved address candidate together with the file descriptor the
socket factory would hand out for it and the behaviour of the connection
attempt on it. -/
structure Cand where
  fd : Nat
  step : ConnStep
  deriving DecidableEq

/-- Result classification of one candidate iteration of tcp.c:144-232. -/
inductive CandRes
  | skip
  | success
  | fail
  | abortCall
  | stuckR
  deriving DecidableEq

/-- One candidate iteration: socket creation, connect, and (for the
`EINPROGRESS` case) the clamped timeout (tcp.c:170-175), the poll loop and
the `SO_ERROR` check (tcp.c:214-222). -/
def candRun (tmo : Int) (c : Cand) : CandRes :=
  match c.step with
  | .createFail => .skip
  | .connectHardFail => .fail
  | .immediate => .success
  | .inProgress evs soErr =>
    let t := (clampTimeout tmo).1
    match (pollLoop (t / 100) (t % 100) evs).2 with
    | .connected => if soErr = 0 then .success else .fail
    | .timedOutNext => .fail
    | .pollErrNext => .fail
    | .aborted => .abortCall
    | .stuckL => .stuckR

/-- State accumulated by the candidate loop: the handle on success, the
fds opened and closed by the loop, how many candidates were iterated, and
whether the call was aborted by `b_die` (tcp.c:182-188). -/
structure LoopOut where
  handle : Option Nat
  opened : List Nat
  closed : List Nat
  attempted : Nat
  aborted : Bool
  stuck : Bool
  deriving DecidableEq

/-- The candidate loop of tcp.c:144-232.  A `createFail` candidate is
skipped without opening a socket (tcp.c:148-152); a failed candidate has
its socket closed at `next_ai` (tcp.c:229-231); success breaks out of the
loop (tcp.c:226-227) without trying further candidates; a `b_die` abort
closes the socket and stops the whole call (tcp.c:185-187). -/
def connLoop (tmo : Int) : List Cand → LoopOut
  | [] => ⟨none, [], [], 0, false, false⟩
  | c :: cs =>
    match candRun tmo c with
    | .success => ⟨some c.fd, [c.fd], [], 1, false, false⟩
    | .abortCall => ⟨none, [c.fd], [c.fd], 1, true, false⟩
    | .stuckR => ⟨none, [c.fd], [], 1, false, true⟩
    | .skip =>
      let r := connLoop tmo cs
      ⟨r.handle, r.opened, r.closed, r.attempted + 1, r.aborted, r.stuck⟩
    | .fail =>
      let r := connLoop tmo cs
      ⟨r.handle, c.fd :: r.opened, c.fd :: r.closed, r.attempted + 1, r.aborted, r.stuck⟩

/-- The SOCKS handshake invocation recorded at tcp.c:245-246: version
argument, user, password, target host and target port. -/
structure HsCall where
  version : Int
  user : Option (List Nat)
  pwd : Option (List Nat)
  host : List Nat
  port : Int
  deriving DecidableEq

/-- Observable outcome of one `__net_Connect` call: the returned handle
(`none` encodes -1), the fds opened and closed during the call, whether a
candidate list was produced by `vlc_getaddrinfo` and whether it was
released by `vlc_freeaddrinfo`, the number of candidates iterated, the
`SocksHandshakeTCP` invocation if any, and the trace-exhaustion marker. -/
structure ConnOut where
  result : Option Nat
  opened : List Nat
  closed : List Nat
  resProduced : Bool
  resFreed : Bool
  attempted : Nat
  hsCall : Option HsCall
  stuck : Bool
  deriving DecidableEq

/-- Environment of one `__net_Connect` call: whether the `socks` variable
is non-empty (tcp.c:85), the `socks-user` and `socks-pwd` variables
(tcp.c:242-243, `none` encodes NULL), the resolver outcome (tcp.c:134),
the `ipv4-timeout` value (tcp.c:169) and whether `SocksHandshakeTCP`
succeeds. -/
structure ConnEnv where
  socks : Bool
  user : Option (List Nat)
  pwd : Option (List Nat)
  resolution : Except Int (List Cand)
  tmo : Int
  hsOk : Bool

/-- The early-return outcomes of `__net_Connect` (proxy type/proto checks
at tcp.c:102-123 and resolver failure at tcp.c:137-142): no socket was
opened, no candidate list was produced. -/
def earlyOut : ConnOut := ⟨none, [], [], false, false, 0, none, false⟩

/-- tcp.c:234-257: after the candidate loop, `vlc_freeaddrinfo(res)` runs
(the `b_die` abort already freed it at tcp.c:186), and on success with a
proxy configured, `SocksHandshakeTCP` is invoked with the literal version
5 (tcp.c:245); its failure closes the handle (tcp.c:249-250). -/
def connFinish (sock : Bool) (user pwd : Option (List Nat)) (hsOk : Bool)
    (host : List Nat) (p : Int) (r : LoopOut) : ConnOut :=
  if r.stuck = true then ⟨none, r.opened, r.closed, true, false, r.attempted, none, true⟩
  else if r.aborted = true then ⟨none, r.opened, r.closed, true, true, r.attempted, none, false⟩
  else
    match r.handle with
    | none => ⟨none, r.opened, r.closed, true, true, r.attempted, none, false⟩
    | some h =>
      if sock = true then
        if hsOk = true then
          ⟨some h, r.opened, r.closed, true, true, r.attempted,
            some ⟨5, user, pwd, host, p⟩, false⟩
        else
          ⟨none, r.opened, h :: r.closed, true, true, r.attempted,
            some ⟨5, user, pwd, host, p⟩, false⟩
      else ⟨some h, r.opened, r.closed, true, true, r.attempted, none, false⟩

/-- `__net_Connect` (tcp.c:71-257).  Port 0 is remapped to 80 (tcp.c:79-80);
with a proxy configured, a socket type other than 0/`SOCK_STREAM` or a
protocol other than 0/`IPPROTO_TCP` returns -1 before resolution
(tcp.c:102-123); resolver failure returns -1 (tcp.c:137-142); otherwise the
candidate loop runs and `connFinish` models tcp.c:234-257. -/
def netConnect (host : List Nat) (port typ proto : Int) (env : ConnEnv) : ConnOut :=
  if env.socks = true ∧ ¬(typ = 0 ∨ typ = SOCK_STREAM) then earlyOut
  else if env.socks = true ∧ ¬(proto = 0 ∨ proto = IPPROTO_TCP) then earlyOut
  else
    match env.resolution with
    | .error _ => earlyOut
    | .ok cands =>
      connFinish env.socks env.user env.pwd env.hsOk host
        (if port = 0 then 80 else port) (connLoop env.tmo cands)

/-! ## Acceptor: `__net_Accept` (tcp.c:266-336) -/

/-- Little-endian byte decomposition of one 4-byte `int` cell of the
`pi_fd` array. -/
def leBytes (x : Nat) : List Nat :=
  [x % 256, x / 256 % 256, x / 65536 % 256, x / 16777216 % 256]

/-- The `pi_fd` array viewed as its underlying byte buffer. -/
def intsToBytes (l : List Nat) : List Nat :=
  (l.map leBytes).flatten

/-- Reassemble 4-byte little-endian cells into ints. -/
def bytesToInts : List Nat → List Nat
  | b0 :: b1 :: b2 :: b3 :: rest =>
    (b0 + 256 * b1 + 65536 * b2 + 16777216 * b3) :: bytesToInts rest
  | _ => []

/-- `memmove(arr + dst, arr + src, cnt)` on a byte buffer (copy as if
through a temporary buffer, which is the guarantee of `memmove`). -/
def memmoveBytes (arr : List Nat) (dst src cnt : Nat) : List Nat :=
  arr.take dst ++ (arr.drop src).take cnt ++ arr.drop (dst + cnt)

/-- tcp.c:327-328: `memmove (pi_fd + i, pi_fd + i + 1, n - (i + 1));
pi_fd[n - 1] = sfd;`.  The third argument of `memmove` counts BYTES, so
the source moves `n - (i + 1)` bytes, not `n - (i + 1)` ints: byte offsets
`4 * i` and `4 * (i + 1)`, byte count `n - (i + 1)`. -/
def rotateBuggy (fds : List Nat) (i : Nat) : List Nat :=
  let n := fds.length
  let sfd := fds.getD i 0
  let b := memmoveBytes (intsToBytes fds) (4 * i) (4 * (i + 1)) (n - (i + 1))
  (bytesToInts b).set (n - 1) sfd

/-- The rotation the comment at tcp.c:323-326 and the spec describe: the
serviced socket moves to the tail, the sockets after it shift left. -/
def rotSpec (fds : List Nat) (i : Nat) : List Nat :=
  fds.take i ++ fds.drop (i + 1) ++ [fds.getD i 0]

/-- Result of one `__net_Accept` call (or of one iteration of its while
loop): `conn` is the accepted connection returned at tcp.c:331, `timedOut`
the `return -1` on `poll` returning 0, `pollErr logged` the `return -1` on
`poll` failing (`logged` records whether the `poll error` message was
emitted, i.e. errno was not `EINTR`, tcp.c:294-298), `interrupted` the
waitpipe branch at tcp.c:302-307, `loopAgain` a pass in which every ready
listener failed `accept`, `blocked` an infinite `poll` with nothing ready,
`deadExit` the `vlc_object_alive` loop exit (tcp.c:334-335), `stuck` a
model artifact for an exhausted environment trace. -/
inductive AKind
  | conn (fd : Nat)
  | timedOut
  | pollErr (logged : Bool)
  | interrupted
  | loopAgain
  | blocked
  | deadExit
  | stuck
  deriving DecidableEq

/-- Environment of one iteration of the accept loop: the liveness flag
`vlc_object_alive` (tcp.c:276), which fds the kernel reports readable,
whether `poll` fails this iteration (`some b` with `b` = errno was
`EINTR`), and the result of `accept` per listener (`none` encodes
failure, tcp.c:316). -/
structure AEnv where
  alive : Bool
  readyFd : Nat → Bool
  pollFail : Option Bool
  acceptRes : Nat → Option Nat

/-- The scan over listeners at tcp.c:309-332: skip entries whose revents
are 0, log and continue past a failed `accept`, and on success rotate the
listen set (with the byte-counted `memmove`) and return the connection. -/
def scanLoop (env : AEnv) (orig : List Nat) : List (Nat × Nat) → AKind × List Nat
  | [] => (.loopAgain, orig)
  | (i, sfd) :: rest =>
    if env.readyFd sfd = true then
      match env.acceptRes sfd with
      | none => scanLoop env orig rest
      | some c => (.conn c, rotateBuggy orig i)
    else scanLoop env orig rest

/-- One iteration of the while loop of `__net_Accept` (tcp.c:276-333).
The pollfd array `ufd` has `n + 1` entries (the listeners plus the
waitpipe fd `evfd`, all initialized with `revents = 0`, tcp.c:281-289),
but `poll` is invoked as `poll (ufd, n, timeout)` (tcp.c:292): only the
first `n` entries are examined, so readiness counts only listeners and the
`revents` entry of index `n` keeps its initial 0 — modelled by the
`++ [false]` entry below.  A `poll` failure falls through the switch to
`return -1` whatever the errno; the errno only gates the log message. -/
def acceptStep (fds : List Nat) (_evfd : Nat) (tmo : Int) (env : AEnv) : AKind × List Nat :=
  match env.pollFail with
  | some eintr => (.pollErr (!eintr), fds)
  | none =>
    if (fds.filter env.readyFd).length = 0 then
      if tmo < 0 then (.blocked, fds) else (.timedOut, fds)
    else if ((fds.map env.readyFd ++ [false]).getD fds.length false) = true then
      (.interrupted, fds)
    else
      scanLoop env fds fds.enum

/-- The while loop of `__net_Accept`: check `vlc_object_alive`, run one
iteration, and loop again only when every ready listener failed `accept`. -/
def acceptLoop (evfd : Nat) (tmo : Int) : List AEnv → List Nat → AKind × List Nat
  | [], fds => (.stuck, fds)
  | env :: envs, fds =>
    if env.alive = true then
      if (acceptStep fds evfd tmo env).1 = .loopAgain then
        acceptLoop evfd tmo envs (acceptStep fds evfd tmo env).2
      else acceptStep fds evfd tmo env
    else (.deadExit, fds)

/-- `__net_Accept` (tcp.c:266-336): the microsecond `i_wait` becomes the
millisecond poll timeout `(i_wait < 0) ? -1 : i_wait / 1000` (tcp.c:268). -/
def netAccept (fds : List Nat) (iWait : Int) (evfd : Nat) (envs : List AEnv) :
    AKind × List Nat :=
  acceptLoop evfd (if iWait < 0 then -1 else iWait / 1000) envs fds

/-! ## ProxyTunnel: `SocksNegociate` (tcp.c:344-426) and the version check
of `SocksHandshakeTCP` (tcp.c:441-445) -/

/-- Result of `SocksNegociate`: `ok` is `VLC_SUCCESS`, `egeneric` is
`VLC_EGENERIC`, and `crashNullCred` marks the `strlen` calls at
tcp.c:389-390 being reached with a NULL credential pointer (undefined
behaviour in the source; no further statement executes in the model). -/
inductive NegRes
  | ok
  | egeneric
  | crashNullCred
  deriving DecidableEq

/-- `SocksNegociate` (tcp.c:344-426).  Credentials are byte strings with
`none` encoding NULL; `selMethod` is the method byte of the 2-byte server
reply read at tcp.c:378, `authStatus` the status byte of the reply read at
tcp.c:405.  The second component collects the frames written to the
socket, in order.  Note tcp.c:358-359: `b_auth` is set exactly when BOTH
credential pointers are NULL, and `b_auth` selects the two-method offer
(tcp.c:362-368). -/
def socksNegotiate (ver : Int) (user pwd : Option (List Nat))
    (selMethod authStatus : Nat) : NegRes × List (List Nat) :=
  if ver ≠ 5 then (.ok, [])
  else
    let b_auth := user.isNone && pwd.isNone
    let offer : List Nat := if b_auth then [5, 2, 0, 2] else [5, 1, 0]
    if selMethod = 0 then (.ok, [offer])
    else if selMethod = 2 then
      match user, pwd with
      | some u, some pw =>
        let u1 := u.take 255
        let p1 := pw.take 255
        let frame : List Nat := 5 :: u1.length :: (u1 ++ p1.length :: p1)
        if authStatus = 0 then (.ok, [offer, frame])
        else (.egeneric, [offer, frame])
      | _, _ => (.crashNullCred, [offer])
    else (.egeneric, [offer])

/-- tcp.c:441-445: `SocksHandshakeTCP` coerces a version other than 4 or 5
to 5; the second component records whether the warning was logged. -/
def socksCoerceVersion (v : Int) : Int × Bool :=
  if v ≠ 4 ∧ v ≠ 5 then (5, true) else (v, false)

/-- Modelled from the spec: the spec §3 ProxyConfig carries a protocol
version field, and §4.1 states that `connect` invokes the negotiation with
the configured proxy protocol version.  The source has no such
configuration variable; this definition follows the words of the spec for
comparison with the call site tcp.c:245. -/
structure SpecProxyConfig where
  version : Int
  deriving DecidableEq

/-- Modelled from the spec: the version the spec says `connect` hands to
`ProxyTunnel.negotiate` — the configured one. -/
def specNegotiateVersion (cfg : SpecProxyConfig) : Int := cfg.version

end VlcTcp

namespace VlcTcp

/-! ## Helper lemmas -/

theorem pollLoop_timeout_replicate (q r : Nat) :
    pollLoop q r (List.replicate (q + 1) PollEv.timeout) =
      (List.replicate q 100 ++ [r], LoopRes.timedOutNext) := by
  induction q with
  | zero => rfl
  | succ q ih =>
    have h1 : List.replicate (q + 1 + 1) PollEv.timeout =
        PollEv.timeout :: List.replicate (q + 1) PollEv.timeout := List.replicate_succ _ _
    have hstep : pollLoop (q + 1) r (PollEv.timeout :: List.replicate (q + 1) PollEv.timeout) =
        (100 :: (pollLoop q r (List.replicate (q + 1) PollEv.timeout)).1,
          (pollLoop q r (List.replicate (q + 1) PollEv.timeout)).2) := rfl
    rw [h1, hstep, ih]
    simp [List.replicate_succ]

theorem pollLoop_die_after (r k : Nat) : ∀ q, k ≤ q →
    pollLoop q r (List.replicate k PollEv.timeout ++ [PollEv.die]) =
      (List.replicate k 100, LoopRes.aborted) := by
  induction k with
  | zero => intro q _; rfl
  | succ k ih =>
    intro q hk
    cases q with
    | zero => omega
    | succ q =>
      have h1 : List.replicate (k + 1) PollEv.timeout ++ [PollEv.die] =
          PollEv.timeout :: (List.replicate k PollEv.timeout ++ [PollEv.die]) := by
        simp [List.replicate_succ]
      have hstep : pollLoop (q + 1) r
            (PollEv.timeout :: (List.replicate k PollEv.timeout ++ [PollEv.die])) =
          (100 :: (pollLoop q r (List.replicate k PollEv.timeout ++ [PollEv.die])).1,
            (pollLoop q r (List.replicate k PollEv.timeout ++ [PollEv.die])).2) := rfl
      rw [h1, hstep, ih q (by omega)]
      simp [List.replicate_succ]

theorem getD_append_false (l : List Bool) : (l ++ [false]).getD l.length false = false := by
  induction l with
  | nil => rfl
  | cons a t ih =>
    simp only [List.cons_append, List.length_cons, List.getD_cons_succ]
    exact ih

theorem scanLoop_shape (env : AEnv) (orig : List Nat) (l : List (Nat × Nat)) :
    (∃ c fds, scanLoop env orig l = (.conn c, fds)) ∨
      scanLoop env orig l = (.loopAgain, orig) := by
  induction l with
  | nil => exact Or.inr rfl
  | cons p rest ih =>
    obtain ⟨i, sfd⟩ := p
    by_cases hr : env.readyFd sfd = true
    · cases ha : env.acceptRes sfd with
      | none =>
        simp only [scanLoop, hr, ha, if_true]
        exact ih
      | some c => exact Or.inl ⟨c, rotateBuggy orig i, by simp [scanLoop, hr, ha]⟩
    · simpa [scanLoop, hr] using ih

end VlcTcp

namespace VlcTcp

/-! ## Claim theorems: connector timing (C8, C10) -/

/-- C8: for an in-progress connect attempt with configured timeout `T` ms,
the poll loop waits in `T / 100` slices of 100 ms followed by one final
slice of `T % 100` ms (shown on the trace in which every slice times out);
the liveness flag is checked between slices (a `b_die` observed after `k`
full slices aborts the call having polled exactly `k` slices of 100 ms);
and once the budget is exhausted the candidate is abandoned
(`candRun` yields `.fail`, so iteration moves to the next candidate). -/
theorem connect_poll_slices (T : Nat) :
    pollLoop (T / 100) (T % 100) (List.replicate (T / 100 + 1) PollEv.timeout) =
      (List.replicate (T / 100) 100 ++ [T % 100], LoopRes.timedOutNext) ∧
    (∀ k, k ≤ T / 100 →
      pollLoop (T / 100) (T % 100) (List.replicate k PollEv.timeout ++ [PollEv.die]) =
        (List.replicate k 100, LoopRes.aborted)) ∧
    (∀ fd, candRun (T : Int)
        ⟨fd, .inProgress (List.replicate (T / 100 + 1) PollEv.timeout) 0⟩ = .fail) := by
  refine ⟨pollLoop_timeout_replicate _ _, fun k hk => pollLoop_die_after _ k _ hk, fun fd => ?_⟩
  have h0 : ¬ ((T : Int) < 0) := by omega
  have hc : clampTimeout (T : Int) = (T, false) := by
    simp [clampTimeout, h0]
  simp [candRun, hc, pollLoop_timeout_replicate]

/-- Witness for `connect_poll_slices` at T = 250, k = 2. -/
theorem connect_poll_slices_witness :
    pollLoop 2 50 (List.replicate 2 PollEv.timeout ++ [PollEv.die]) =
      (List.replicate 2 100, LoopRes.aborted) :=
  (connect_poll_slices 250).2.1 2 (by decide)

/-- C10: a negative configured connect timeout is clamped to zero with an
error logged (`clampTimeout` yields `(0, true)`), after which an
in-progress candidate receives a single zero-millisecond poll slice and is
abandoned as timed out (`candRun` yields `.fail`, i.e. the loop advances
to the next candidate rather than waiting forever or rejecting outright). -/
theorem connect_negative_timeout (t : Int) (h : t < 0) :
    clampTimeout t = (0, true) ∧
    pollLoop ((clampTimeout t).1 / 100) ((clampTimeout t).1 % 100) [PollEv.timeout] =
      ([0], LoopRes.timedOutNext) ∧
    ∀ fd, candRun t ⟨fd, .inProgress [PollEv.timeout] 0⟩ = .fail := by
  have hc : clampTimeout t = (0, true) := by simp [clampTimeout, h]
  refine ⟨hc, ?_, fun fd => ?_⟩
  · rw [hc]
    decide
  · simp only [candRun, hc]
    decide

/-- Witness for `connect_negative_timeout` at t = -7. -/
theorem connect_negative_timeout_witness :
    clampTimeout (-7) = (0, true) ∧
    candRun (-7) ⟨33, .inProgress [PollEv.timeout] 0⟩ = .fail :=
  ⟨(connect_negative_timeout (-7) (by decide)).1,
   (connect_negative_timeout (-7) (by decide)).2.2 33⟩

end VlcTcp

namespace VlcTcp

/-! ## Claim theorems: acceptor (C1, C2, C9) -/

/-- C1 (code bug): the claim says the readiness wait includes the
cancellation descriptor alongside the listeners, so a signal raised before
any listener is ready is detected within one wait slice and the call
returns Interrupted.  In the source `poll` is invoked with `nfds = n`
(tcp.c:292) although `ufd` holds `n + 1` entries, so the waitpipe entry is
never examined: with one unready listener and the signal raised, one
100 ms wait slice elapses and the call returns -1 as a plain timeout
(first conjunct), and no execution of the accept step can ever reach the
Interrupted branch at tcp.c:302-307 (second conjunct). -/
theorem accept_waitpipe_not_polled :
    netAccept [3] 100000 7 [⟨true, fun f => f == 7, none, fun _ => none⟩] =
      (AKind.timedOut, [3]) ∧
    ∀ fds evfd tmo env, (acceptStep fds evfd tmo env).1 ≠ AKind.interrupted := by
  refine ⟨by decide, fun fds evfd tmo env => ?_⟩
  unfold acceptStep
  cases hp : env.pollFail with
  | some e => simp
  | none =>
    by_cases hz : (fds.filter env.readyFd).length = 0
    · by_cases ht : tmo < 0 <;> simp [hz, ht]
    · have hg : ((fds.map env.readyFd ++ [false]).getD fds.length false) = false := by
        have h1 := getD_append_false (fds.map env.readyFd)
        rwa [List.length_map] at h1
      simp only [hz, hg, if_neg, if_false, Bool.false_eq_true]
      rcases scanLoop_shape env fds fds.enum with ⟨c, f2, hsc⟩ | hsc <;> simp [hsc]

/-- C2 (code bug): the claim says a successful accept on index i leaves
the listen set rotated (serviced socket to the tail, followers shifted
left).  The `memmove` at tcp.c:327 counts bytes instead of ints, so for
listen set [3, 4, 5] with index 0 serviced the source produces [4, 4, 3]
(fd 4 duplicated, fd 5 lost) where the claimed rotation is [4, 5, 3];
an accept step servicing fd 3 returns the corrupted set. -/
theorem accept_rotation_memmove_bug :
    rotateBuggy [3, 4, 5] 0 = [4, 4, 3] ∧
    rotSpec [3, 4, 5] 0 = [4, 5, 3] ∧
    acceptStep [3, 4, 5] 9 (-1)
        ⟨true, fun _ => true, none, fun s => if s == 3 then some 90 else none⟩ =
      (AKind.conn 90, [4, 4, 3]) ∧
    ¬(([4, 4, 3] : List Nat) = [4, 5, 3]) := by
  exact ⟨by decide, by decide, by decide, by decide⟩

/-- C9 (counterexample): the claim says a wait failure due to
"interrupted by signal" does not produce the immediate error return.  In
the source the `case -1` of the switch falls through to `case 0: return -1`
(tcp.c:294-298), so a first wait that fails with EINTR returns -1
immediately: here the second environment entry would have accepted a
connection, yet the call ends at the first entry with an unlogged poll
error. -/
theorem accept_eintr_counterexample :
    acceptLoop 7 (-1)
        [⟨true, fun _ => false, some true, fun _ => none⟩,
         ⟨true, fun _ => true, none, fun s => if s == 3 then some 90 else none⟩] [3] =
      (AKind.pollErr false, [3]) := by decide

/-- C9 (amended): accept returns immediately with TimedOut or PollError
exactly when the readiness wait reports zero ready descriptors (with a
non-infinite timeout) or fails with ANY error; a failure with EINTR also
returns immediately, it merely suppresses the poll-error log (the log flag
is false exactly when the failure was EINTR), and no retry of the wait
happens within the call after a wait failure. -/
theorem accept_immediate_return_amended (fds : List Nat) (evfd : Nat) (tmo : Int)
    (env : AEnv) (envs : List AEnv) (e : Bool) (ha : env.alive = true) :
    (((∃ b, (acceptStep fds evfd tmo env).1 = AKind.pollErr b) ∨
        (acceptStep fds evfd tmo env).1 = AKind.timedOut) ↔
      (env.pollFail ≠ none ∨ ((fds.filter env.readyFd).length = 0 ∧ 0 ≤ tmo))) ∧
    ((acceptStep fds evfd tmo env).1 = AKind.pollErr false ↔ env.pollFail = some true) ∧
    (env.pollFail = some e →
      acceptLoop evfd tmo (env :: envs) fds = (AKind.pollErr (!e), fds)) := by
  have hg : ((fds.map env.readyFd ++ [false]).getD fds.length false) = false := by
    have h1 := getD_append_false (fds.map env.readyFd)
    rwa [List.length_map] at h1
  have hstep : ∀ e2, env.pollFail = some e2 →
      acceptStep fds evfd tmo env = (AKind.pollErr (!e2), fds) := by
    intro e2 hp
    unfold acceptStep
    rw [hp]
  refine ⟨?_, ?_, ?_⟩
  · cases hp : env.pollFail with
    | some e2 =>
      rw [hstep e2 hp]
      simp
    | none =>
      by_cases hz : (fds.filter env.readyFd).length = 0
      · by_cases ht : tmo < 0
        · have h1 : acceptStep fds evfd tmo env = (AKind.blocked, fds) := by
            unfold acceptStep
            rw [hp]
            simp [hz, ht]
          rw [h1]
          simp [hz]
          omega
        · have h1 : acceptStep fds evfd tmo env = (AKind.timedOut, fds) := by
            unfold acceptStep
            rw [hp]
            simp [hz, ht]
          rw [h1]
          simp [hz]
          omega
      · have h1 : acceptStep fds evfd tmo env = scanLoop env fds fds.enum := by
          unfold acceptStep
          rw [hp]
          simp [hz, hg]
        rcases scanLoop_shape env fds fds.enum with ⟨c, f2, hsc⟩ | hsc <;>
          simp [h1, hsc, hz]
  · cases hp : env.pollFail with
    | some e2 =>
      rw [hstep e2 hp]
      cases e2 <;> simp
    | none =>
      by_cases hz : (fds.filter env.readyFd).length = 0
      · by_cases ht : tmo < 0
        · have h1 : acceptStep fds evfd tmo env = (AKind.blocked, fds) := by
            unfold acceptStep
            rw [hp]
            simp [hz, ht]
          rw [h1]
          simp
        · have h1 : acceptStep fds evfd tmo env = (AKind.timedOut, fds) := by
            unfold acceptStep
            rw [hp]
            simp [hz, ht]
          rw [h1]
          simp
      · have h1 : acceptStep fds evfd tmo env = scanLoop env fds fds.enum := by
          unfold acceptStep
          rw [hp]
          simp [hz, hg]
        rcases scanLoop_shape env fds fds.enum with ⟨c, f2, hsc⟩ | hsc <;>
          simp [h1, hsc]
  · intro he
    have h1 := hstep e he
    simp [acceptLoop, ha, h1]

/-- Witness for `accept_immediate_return_amended`: one EINTR wait failure
on a one-listener set returns immediately with an unlogged poll error. -/
theorem accept_immediate_return_amended_witness :
    acceptLoop 7 5 [⟨true, fun _ => false, some false, fun _ => none⟩] [3] =
      (AKind.pollErr true, [3]) :=
  (accept_immediate_return_amended [3] 7 5 ⟨true, fun _ => false, some false, fun _ => none⟩
      [] false rfl).2.2 rfl

end VlcTcp

namespace VlcTcp
/-! ## Helper lemmas for the connector resource accounting -/

theorem connLoop_aborted_handle (tmo : Int) (cands : List Cand) :
    (connLoop tmo cands).aborted = true → (connLoop tmo cands).handle = none := by
  induction cands with
  | nil =>
    intro h
    simp [connLoop] at h
  | cons c cs ih =>
    intro h
    cases hc : candRun tmo c
    case skip =>
      simp only [connLoop, hc] at h ⊢
      exact ih h
    case success =>
      simp [connLoop, hc] at h
    case fail =>
      simp only [connLoop, hc] at h ⊢
      exact ih h
    case abortCall =>
      simp [connLoop, hc]
    case stuckR =>
      simp [connLoop, hc] at h

theorem filter_erase_single (l cl : List Nat) (h : Nat)
    (hf : l.filter (fun x => !(cl.contains x)) = [h]) :
    l.filter (fun x => !((h :: cl).contains x)) = [] := by
  have h1 : l.filter (fun x => !((h :: cl).contains x)) =
      (l.filter (fun x => !(cl.contains x))).filter (fun x => !(x == h)) := by
    rw [List.filter_filter]
    apply List.filter_congr
    intro x _
    simp [Bool.not_or, Bool.beq_eq_decide_eq]
  rw [h1, hf]
  simp

theorem connLoop_filter_inv (tmo : Int) (cands : List Cand)
    (hs : (connLoop tmo cands).stuck = false)
    (hn : (connLoop tmo cands).opened.Nodup) :
    (connLoop tmo cands).opened.filter
        (fun x => !((connLoop tmo cands).closed.contains x)) =
      (match (connLoop tmo cands).handle with
       | some h => [h]
       | none => []) := by
  induction cands with
  | nil => simp [connLoop]
  | cons c cs ih =>
    cases hc : candRun tmo c
    case skip =>
      simp only [connLoop, hc] at hs hn ⊢
      exact ih hs hn
    case success => simp [connLoop, hc]
    case abortCall => simp [connLoop, hc]
    case stuckR => simp [connLoop, hc] at hs
    case fail =>
      simp only [connLoop, hc] at hs hn ⊢
      obtain ⟨hfd, hnd⟩ := List.nodup_cons.mp hn
      have hX : ((c.fd :: (connLoop tmo cs).closed).contains c.fd) = true := by
        simp
      rw [List.filter_cons]
      simp only [hX, Bool.not_true, Bool.false_eq_true, if_false]
      have hcong : (connLoop tmo cs).opened.filter
            (fun x => !((c.fd :: (connLoop tmo cs).closed).contains x)) =
          (connLoop tmo cs).opened.filter
            (fun x => !((connLoop tmo cs).closed.contains x)) := by
        apply List.filter_congr
        intro x hx
        have hxne : ¬ x = c.fd := by
          intro hEq
          exact hfd (hEq ▸ hx)
        simp [hxne]
      rw [hcong]
      exact ih hs hnd

theorem connFinish_opened (sock : Bool) (user pwd : Option (List Nat)) (hsOk : Bool)
    (host : List Nat) (p : Int) (r : LoopOut) :
    (connFinish sock user pwd hsOk host p r).opened = r.opened := by
  by_cases h1 : r.stuck = true <;> by_cases h2 : r.aborted = true <;>
    cases hh : r.handle <;> by_cases h3 : sock = true <;> by_cases h4 : hsOk = true <;>
      simp [connFinish, h1, h2, hh, h3, h4]

theorem connFinish_stuck (sock : Bool) (user pwd : Option (List Nat)) (hsOk : Bool)
    (host : List Nat) (p : Int) (r : LoopOut) :
    (connFinish sock user pwd hsOk host p r).stuck = r.stuck := by
  by_cases h1 : r.stuck = true <;> by_cases h2 : r.aborted = true <;>
    cases hh : r.handle <;> by_cases h3 : sock = true <;> by_cases h4 : hsOk = true <;>
      simp [connFinish, h1, h2, hh, h3, h4]

theorem connFinish_no_leak (sock : Bool) (user pwd : Option (List Nat)) (hsOk : Bool)
    (host : List Nat) (p : Int) (r : LoopOut)
    (hst : r.stuck = false)
    (hinv : r.opened.filter (fun x => !(r.closed.contains x)) =
      (match r.handle with | some h => [h] | none => []))
    (hab : r.aborted = true → r.handle = none) :
    (∀ h, (connFinish sock user pwd hsOk host p r).result = some h →
      (connFinish sock user pwd hsOk host p r).opened.filter
        (fun x => !((connFinish sock user pwd hsOk host p r).closed.contains x)) = [h]) ∧
    ((connFinish sock user pwd hsOk host p r).result = none →
      (connFinish sock user pwd hsOk host p r).opened.filter
        (fun x => !((connFinish sock user pwd hsOk host p r).closed.contains x)) = []) ∧
    ((connFinish sock user pwd hsOk host p r).resProduced = true →
      (connFinish sock user pwd hsOk host p r).resFreed = true) := by
  by_cases h2 : r.aborted = true
  · have hh := hab h2
    rw [hh] at hinv
    simp only at hinv
    have hcf : connFinish sock user pwd hsOk host p r =
        ⟨none, r.opened, r.closed, true, true, r.attempted, none, false⟩ := by
      simp [connFinish, hst, h2]
    rw [hcf]
    refine ⟨?_, ?_, ?_⟩
    · intro h hcontr
      simp at hcontr
    · intro _
      exact hinv
    · intro _
      rfl
  · cases hh : r.handle with
    | none =>
      rw [hh] at hinv
      simp only at hinv
      have hcf : connFinish sock user pwd hsOk host p r =
          ⟨none, r.opened, r.closed, true, true, r.attempted, none, false⟩ := by
        simp [connFinish, hst, h2, hh]
      rw [hcf]
      refine ⟨?_, ?_, ?_⟩
      · intro h hcontr
        simp at hcontr
      · intro _
        exact hinv
      · intro _
        rfl
    | some hd =>
      rw [hh] at hinv
      simp only at hinv
      by_cases h3 : sock = true
      · by_cases h4 : hsOk = true
        · have hcf : connFinish sock user pwd hsOk host p r =
              ⟨some hd, r.opened, r.closed, true, true, r.attempted,
                some ⟨5, user, pwd, host, p⟩, false⟩ := by
            simp [connFinish, hst, h2, hh, h3, h4]
          rw [hcf]
          refine ⟨?_, ?_, ?_⟩
          · intro h heq
            have hhd : hd = h := by simpa using heq
            rw [← hhd]
            exact hinv
          · intro hcontr
            simp at hcontr
          · intro _
            rfl
        · have hcf : connFinish sock user pwd hsOk host p r =
              ⟨none, r.opened, hd :: r.closed, true, true, r.attempted,
                some ⟨5, user, pwd, host, p⟩, false⟩ := by
            simp [connFinish, hst, h2, hh, h3, h4]
          rw [hcf]
          refine ⟨?_, ?_, ?_⟩
          · intro h hcontr
            simp at hcontr
          · intro _
            exact filter_erase_single r.opened r.closed hd hinv
          · intro _
            rfl
      · have hcf : connFinish sock user pwd hsOk host p r =
            ⟨some hd, r.opened, r.closed, true, true, r.attempted, none, false⟩ := by
          simp [connFinish, hst, h2, hh, h3]
        rw [hcf]
        refine ⟨?_, ?_, ?_⟩
        · intro h heq
          have hhd : hd = h := by simpa using heq
          rw [← hhd]
          exact hinv
        · intro hcontr
          simp at hcontr
        · intro _
          rfl

end VlcTcp

namespace VlcTcp

/-! ## Claim theorems: connector resources and proxy (C5, C6, C7, C3, C4) -/

/-- C5: for every candidate sequence and connect outcome (under a complete
environment trace and distinct per-candidate fds), on success exactly one
socket — the returned handle — remains open (the opened fds minus the
closed ones are exactly `[h]`); on every failure path every socket created
during the call has been closed (nothing remains open); and whenever a
resolved candidate list was produced it was released. -/
theorem connect_no_leak (host : List Nat) (port typ proto : Int) (env : ConnEnv)
    (hs : (netConnect host port typ proto env).stuck = false)
    (hn : (netConnect host port typ proto env).opened.Nodup) :
    (∀ h, (netConnect host port typ proto env).result = some h →
      (netConnect host port typ proto env).opened.filter
        (fun x => !((netConnect host port typ proto env).closed.contains x)) = [h]) ∧
    ((netConnect host port typ proto env).result = none →
      (netConnect host port typ proto env).opened.filter
        (fun x => !((netConnect host port typ proto env).closed.contains x)) = []) ∧
    ((netConnect host port typ proto env).resProduced = true →
      (netConnect host port typ proto env).resFreed = true) := by
  by_cases c1 : env.socks = true ∧ ¬(typ = 0 ∨ typ = SOCK_STREAM)
  · simp [netConnect, c1, earlyOut]
  · by_cases c2 : env.socks = true ∧ ¬(proto = 0 ∨ proto = IPPROTO_TCP)
    · simp [netConnect, c1, c2, earlyOut]
    · cases hres : env.resolution with
      | error e => simp [netConnect, c1, c2, hres, earlyOut]
      | ok cands =>
        have hnc : netConnect host port typ proto env =
            connFinish env.socks env.user env.pwd env.hsOk host
              (if port = 0 then 80 else port) (connLoop env.tmo cands) := by
          unfold netConnect
          rw [if_neg c1, if_neg c2, hres]
        rw [hnc] at hs hn ⊢
        rw [connFinish_stuck] at hs
        rw [connFinish_opened] at hn
        exact connFinish_no_leak _ _ _ _ _ _ _ hs
          (connLoop_filter_inv env.tmo cands hs hn)
          (connLoop_aborted_handle env.tmo cands)

/-- Witness for `connect_no_leak`: candidates [11 (connect fails), 12
(succeeds)], no proxy: exactly fd 12 remains open. -/
theorem connect_no_leak_witness :
    (netConnect [] 5 0 0 ⟨false, none, none,
        .ok [⟨11, .connectHardFail⟩, ⟨12, .immediate⟩], 500, true⟩).opened.filter
      (fun x => !((netConnect [] 5 0 0 ⟨false, none, none,
        .ok [⟨11, .connectHardFail⟩, ⟨12, .immediate⟩], 500, true⟩).closed.contains x)) =
      [12] :=
  (connect_no_leak [] 5 0 0
    ⟨false, none, none, .ok [⟨11, .connectHardFail⟩, ⟨12, .immediate⟩], 500, true⟩
    (by decide) (by decide)).1 12 (by decide)

/-- C6 (counterexample): for candidates [A = fd 10 failing creation,
B = fd 11 failing connect, C = fd 12 succeeding] the call returns fd 12,
but the number of intermediate sockets closed during the call is 1, not 2
as the claim states: a candidate whose socket creation fails produces no
socket to close. -/
theorem connect_candidates_counterexample :
    (netConnect [] 5 0 0 ⟨false, none, none,
        .ok [⟨10, .createFail⟩, ⟨11, .connectHardFail⟩, ⟨12, .immediate⟩],
        1000, true⟩).result = some 12 ∧
    ¬((netConnect [] 5 0 0 ⟨false, none, none,
        .ok [⟨10, .createFail⟩, ⟨11, .connectHardFail⟩, ⟨12, .immediate⟩],
        1000, true⟩).closed.length = 2) := by
  exact ⟨by decide, by decide⟩

/-- C6 (amended): with candidates [A = 10 failing creation, B = 11 failing
connect, C = 12 succeeding, D = 13 never reached], connect returns the
handle of C, exactly one intermediate socket (the one of B) is closed
during the call, and iteration stops after C: only 3 of the 4 candidates
are attempted. -/
theorem connect_candidates_amended :
    netConnect [] 5 0 0 ⟨false, none, none,
        .ok [⟨10, .createFail⟩, ⟨11, .connectHardFail⟩, ⟨12, .immediate⟩, ⟨13, .immediate⟩],
        1000, true⟩ =
      ⟨some 12, [11, 12], [11], true, true, 3, none, false⟩ ∧
    ([11] : List Nat).length = 1 := by
  exact ⟨by decide, by decide⟩

/-- C7 (counterexample): the claim says connect invokes the SOCKS
handshake with the configured proxy protocol version.  The call site
tcp.c:245 passes the literal 5 and `__net_Connect` reads no version
configuration at all: with a spec-style ProxyConfig carrying version 4,
the spec-mandated negotiate version is 4 while the recorded invocation
carries 5. -/
theorem connect_socks_version_counterexample :
    (netConnect [104] 0 0 0 ⟨true, none, none, .ok [⟨20, .immediate⟩], 1000, true⟩).hsCall =
      some ⟨5, none, none, [104], 80⟩ ∧
    specNegotiateVersion ⟨4⟩ = 4 ∧
    ¬((5 : Int) = 4) := by
  exact ⟨by decide, by decide, by decide⟩

/-- C7 (amended): whenever connect records a SOCKS handshake invocation,
that invocation carries the hardcoded version 5 together with the
configured credentials and the original target host and the remapped
target port; separately, `SocksHandshakeTCP` keeps a version argument of
4 or 5 unchanged without warning and coerces any other version to 5 with
a warning. -/
theorem connect_socks_version_amended (host : List Nat) (port typ proto : Int)
    (env : ConnEnv) (c : HsCall)
    (hc : (netConnect host port typ proto env).hsCall = some c) :
    c = ⟨5, env.user, env.pwd, host, if port = 0 then 80 else port⟩ ∧
    (∀ v : Int, v = 4 ∨ v = 5 → socksCoerceVersion v = (v, false)) ∧
    (∀ v : Int, v ≠ 4 → v ≠ 5 → socksCoerceVersion v = (5, true)) := by
  refine ⟨?_, ?_, ?_⟩
  · by_cases c1 : env.socks = true ∧ ¬(typ = 0 ∨ typ = SOCK_STREAM)
    · simp [netConnect, c1, earlyOut] at hc
    · by_cases c2 : env.socks = true ∧ ¬(proto = 0 ∨ proto = IPPROTO_TCP)
      · simp [netConnect, c1, c2, earlyOut] at hc
      · cases hres : env.resolution with
        | error e => simp [netConnect, c1, c2, hres, earlyOut] at hc
        | ok cands =>
          have hnc : netConnect host port typ proto env =
              connFinish env.socks env.user env.pwd env.hsOk host
                (if port = 0 then 80 else port) (connLoop env.tmo cands) := by
            unfold netConnect
            rw [if_neg c1, if_neg c2, hres]
          rw [hnc] at hc
          by_cases h1 : (connLoop env.tmo cands).stuck = true
          · simp [connFinish, h1] at hc
          · by_cases h2 : (connLoop env.tmo cands).aborted = true
            · simp [connFinish, h1, h2] at hc
            · cases hh : (connLoop env.tmo cands).handle with
              | none => simp [connFinish, h1, h2, hh] at hc
              | some hd =>
                by_cases h3 : env.socks = true
                · by_cases h4 : env.hsOk = true
                  · have hv : (connFinish env.socks env.user env.pwd env.hsOk host
                        (if port = 0 then 80 else port) (connLoop env.tmo cands)).hsCall =
                        some ⟨5, env.user, env.pwd, host, if port = 0 then 80 else port⟩ := by
                      simp [connFinish, h1, h2, hh, h3, h4]
                    rw [hv] at hc
                    exact (Option.some.inj hc).symm
                  · have hv : (connFinish env.socks env.user env.pwd env.hsOk host
                        (if port = 0 then 80 else port) (connLoop env.tmo cands)).hsCall =
                        some ⟨5, env.user, env.pwd, host, if port = 0 then 80 else port⟩ := by
                      simp [connFinish, h1, h2, hh, h3, h4]
                    rw [hv] at hc
                    exact (Option.some.inj hc).symm
                · simp [connFinish, h1, h2, hh, h3] at hc
  · intro v hv
    rcases hv with h | h <;> subst h <;> simp [socksCoerceVersion]
  · intro v h4 h5
    simp [socksCoerceVersion, h4, h5]

/-- Witness for `connect_socks_version_amended`: a proxy-configured
connect with target port 7 records the invocation with version 5, and the
in-range version 4 passes the coercion unchanged. -/
theorem connect_socks_version_amended_witness :
    socksCoerceVersion 4 = (4, false) :=
  (connect_socks_version_amended [104] 7 0 0
      ⟨true, some [117], some [112], .ok [⟨20, .immediate⟩], 1000, true⟩
      ⟨5, some [117], some [112], [104], 7⟩ (by decide)).2.1 4 (Or.inl rfl)

/-- C3 (code bug): the claim says no credentials give a one-method offer
{no-auth} and supplied credentials give the two-method offer {no-auth,
user/password}.  The `b_auth` test at tcp.c:358-359 is inverted: with both
credentials NULL the source sends the two-method frame [5, 2, 0, 2], and
with credentials supplied it sends the one-method frame [5, 1, 0] —
exactly the opposite of the claim on both sides. -/
theorem socks_offer_inverted :
    (socksNegotiate 5 none none 0 0).2 = [[5, 2, 0, 2]] ∧
    (socksNegotiate 5 (some [117]) (some [112]) 0 0).2 = [[5, 1, 0]] ∧
    ¬((socksNegotiate 5 none none 0 0).2 = [[5, 1, 0]]) ∧
    ¬((socksNegotiate 5 (some [117]) (some [112]) 0 0).2 = [[5, 2, 0, 2]]) := by
  exact ⟨by decide, by decide, by decide, by decide⟩

/-- C4 (code bug): the claim says that when the server selects
user/password but no credentials were supplied, negotiation returns
AuthUnsupported without writing an auth frame.  In the source the selected
method 0x02 unconditionally enters the user/password branch, whose first
statements call `strlen` on the NULL credential pointers (tcp.c:389-390):
the run ends in undefined behaviour (`crashNullCred`), not in the
`VLC_EGENERIC` of the unsupported-method branch (tcp.c:415-423); only the
method offer had been written at that point. -/
theorem socks_userpass_null_crash :
    socksNegotiate 5 none none 2 0 = (.crashNullCred, [[5, 2, 0, 2]]) ∧
    ¬((socksNegotiate 5 none none 2 0).1 = .egeneric) ∧
    ¬((socksNegotiate 5 none none 2 0).1 = .ok) := by
  exact ⟨by decide, by decide, by decide⟩

end VlcTcp
